import Mathlib

/-!
Shallow embedding of the RHWidget visual value-extraction engine.

The embedding covers:
* `src/unnamed/part_000` — the standalone page-context cursor reader
  (namespace `Standalone`);
* the injected reader script inlined in `src/extension/content.js`
  (namespace `Inline`);
* the extension-side logic of `src/extension/content.js`
  (namespace `Content`): ticker extraction, symbol activation,
  active-symbol detection, axis calibration, price-cache staleness.

JavaScript strings are modelled as `List Char` (wrapped in `String` at the
API boundary), JavaScript numbers as `ℚ` (every JS double arising in the
modelled code paths is finite; non-finite parses are modelled as `Option`
failures, matching how every consumer treats them).
-/

namespace RHWidget

/-- JS whitespace test used by `String.prototype.trim` (ASCII subset; the
modelled inputs contain no exotic Unicode whitespace). -/
def isWs (c : Char) : Bool :=
  c = ' ' || c = '\t' || c = '\n' || c = '\r' || c = '\x0b' || c = '\x0c'

/-- `String.prototype.trim`. -/
def jsTrim (l : List Char) : List Char :=
  ((l.dropWhile isWs).reverse.dropWhile isWs).reverse

/-- ASCII digit test (regex class `\d` / `[0-9]`). -/
def isDigit (c : Char) : Bool := '0' ≤ c && c ≤ '9'

def isUpperAlpha (c : Char) : Bool := 'A' ≤ c && c ≤ 'Z'

def digitVal (c : Char) : Nat := c.toNat - '0'.toNat

/-- Value of a digit string (used for regex capture groups fed to `+`,
`Number`, `parseInt`). -/
def natOfDigits (l : List Char) : Nat :=
  l.foldl (fun a c => a * 10 + digitVal c) 0

/-- Value of a decimal literal `intPart.fracPart` as an exact rational. -/
def decToRat (intPart fracPart : List Char) : ℚ :=
  (natOfDigits intPart : ℚ) + (natOfDigits fracPart : ℚ) / ((10 : ℚ) ^ fracPart.length)

/-- An RGB triple as produced by the injected readers' `parseRgb`.
Channels are the raw captured digit groups (naturals, not clamped to 255). -/
structure Rgb where
  r : Nat
  g : Nat
  b : Nat
deriving DecidableEq

/-- Digits ≥ 1 at the head of the list (regex `(\d+)`), returning the
captured group and the remainder. -/
def parseDigits1 (l : List Char) : Option (List Char × List Char) :=
  let ds := l.takeWhile isDigit
  if ds.isEmpty then none else some (ds, l.drop ds.length)

def isHexDigit (c : Char) : Bool :=
  isDigit c || ('a' ≤ c && c ≤ 'f') || ('A' ≤ c && c ≤ 'F')

def hexDigitVal (c : Char) : Nat :=
  if isDigit c then digitVal c
  else if 'a' ≤ c && c ≤ 'f' then c.toNat - 'a'.toNat + 10
  else c.toNat - 'A'.toNat + 10

def hexVal (l : List Char) : Nat :=
  l.foldl (fun a c => a * 16 + hexDigitVal c) 0

/-- `parseInt(s, 16)`: longest valid hex prefix, `none` when there is no
valid prefix at all (JS `NaN`). -/
def jsParseIntHex (l : List Char) : Option Nat :=
  let ds := l.takeWhile isHexDigit
  if ds.isEmpty then none else some (hexVal ds)

/-- The numeric message posted by the page-context bridge:
`{ __rhwidget: true, type: "cursor_price", price, ts }`. -/
structure Msg where
  marker : Bool
  kind : String
  price : ℚ
  ts : ℚ
deriving DecidableEq

/-- Sender-relevant fields of the injected readers' `state` object. -/
structure SenderState where
  cursorPrice : Option ℚ
  lastSent : ℚ
  lastSentPrice : Option ℚ
deriving DecidableEq

/-- The `state` literal both readers start from
(`cursorPrice: null, lastSent: 0, lastSentPrice: null`). -/
def initSenderState : SenderState := ⟨none, 0, none⟩

/-- One invocation of the sender at `performance.now() = now` and
`Date.now() = wall`. -/
structure PostEvent where
  now : ℚ
  wall : ℚ
  price : ℚ

/-- The `lastRect` slot remembered by the wrapped `fillRect`. -/
structure LastRect where
  t : ℚ
  fill : String
deriving DecidableEq

/-- One canvas draw operation as seen by a wrapped 2D context, tagged with
the clocks and the pointer position at that instant (both readers receive
the same draw calls, pointer positions and timestamps). -/
inductive CanvasEvent
  | rect (now w h : ℚ) (fillStyle : String)
  | text (now wall : ℚ) (txt : String) (x y : ℚ) (mouseYCanvas : Option ℚ)

namespace Standalone

/-! Embedding of `src/unnamed/part_000`, the standalone page-context cursor
reader (`injected_cursor.js`). -/

/-- Body of the `rgba?\((\d+),\s*(\d+),\s*(\d+)/` match after the opening
parenthesis: digits, comma, optional spaces, digits, comma, optional
spaces, digits. -/
def matchRgbBody (l : List Char) : Option Rgb := do
  let (d1, l) ← parseDigits1 l
  match l with
  | ',' :: l =>
    let l := l.dropWhile isWs
    let (d2, l) ← parseDigits1 l
    match l with
    | ',' :: l =>
      let l := l.dropWhile isWs
      let (d3, _) ← parseDigits1 l
      some ⟨natOfDigits d1, natOfDigits d2, natOfDigits d3⟩
    | _ => none
  | _ => none

/-- Try the (unanchored) `rgba?\(` pattern at the current position. -/
def matchRgbAt (l : List Char) : Option Rgb :=
  match l with
  | 'r' :: 'g' :: 'b' :: 'a' :: '(' :: rest => matchRgbBody rest
  | 'r' :: 'g' :: 'b' :: '(' :: rest => matchRgbBody rest
  | _ => none

/-- Leftmost match of the `rgba?\((\d+),\s*(\d+),\s*(\d+)/` pattern
(fuel-driven scan over the string, one position at a time). -/
def findRgb : Nat → List Char → Option Rgb
  | 0, _ => none
  | _ + 1, [] => none
  | fuel + 1, c :: rest =>
    match matchRgbAt (c :: rest) with
    | some rgb => some rgb
    | none => findRgb fuel rest

/-- Hex branch of `parseRgb`: `#abc` expands to `#aabbcc`; a 6-digit body is
split into three `parseInt(·, 16)` channels. A channel with no valid hex
prefix is JS `NaN`; since every consumer of `parseRgb` in the modelled code
(the three classifiers) treats an object with a `NaN` channel exactly like a
failed parse (all comparisons with `NaN` are false), it is modelled as
`none`. -/
def parseHexColor (hex : List Char) : Option Rgb := do
  let hex := if hex.length = 3 then hex.flatMap (fun c => [c, c]) else hex
  if hex.length ≠ 6 then none else
  let r ← jsParseIntHex (hex.take 2)
  let g ← jsParseIntHex ((hex.drop 2).take 2)
  let b ← jsParseIntHex (hex.drop 4)
  some ⟨r, g, b⟩

/-- `parseRgb` (part_000 lines 55–72): trim + lowercase, try the functional
`rgb()`/`rgba()` notation anywhere in the string, else the `#hex` form
anchored at the start. -/
def parseRgb (style : String) : Option Rgb :=
  let s := (jsTrim style.toList).map Char.toLower
  if s.isEmpty then none else
  match findRgb s.length s with
  | some rgb => some rgb
  | none =>
    match s with
    | '#' :: hex => parseHexColor hex
    | _ => none

/-- The channel test inside `isGreen` (part_000 line 77):
`c.g > 150 && c.g > c.r + 40 && c.g > c.b + 40`. -/
def isGreenRgb (c : Rgb) : Bool :=
  decide (150 < c.g) && decide (c.r + 40 < c.g) && decide (c.b + 40 < c.g)

/-- The channel test inside `isRed` (part_000 line 83):
`c.r > 150 && c.r > c.g + 40 && c.r > c.b + 40`. -/
def isRedRgb (c : Rgb) : Bool :=
  decide (150 < c.r) && decide (c.g + 40 < c.r) && decide (c.b + 40 < c.r)

/-- The luminance/spread test inside `isNeutralDark` (part_000 lines 90–97):
BT.709 luminance below 90 and maximum pairwise channel difference below 22. -/
def isNeutralDarkRgb (c : Rgb) : Bool :=
  let lum : ℚ := (2126 * c.r + 7152 * c.g + 722 * c.b : ℚ) / 10000
  if 90 ≤ lum then false
  else
    let rg := max c.r c.g - min c.r c.g
    let gb := max c.g c.b - min c.g c.b
    let rb := max c.r c.b - min c.r c.b
    decide (max (max rg gb) rb < 22)

def isGreen (style : String) : Bool :=
  match parseRgb style with
  | none => false
  | some c => isGreenRgb c

def isRed (style : String) : Bool :=
  match parseRgb style with
  | none => false
  | some c => isRedRgb c

def isNeutralDark (style : String) : Bool :=
  match parseRgb style with
  | none => false
  | some c => isNeutralDarkRgb c

/-- Full anchored match of `/^[0-9]+(\.[0-9]+)?$/` together with `Number(s)`
on success: leading digits, optionally a dot followed by digits, and
nothing else. -/
def fullNumMatch (l : List Char) : Option ℚ :=
  let ip := l.takeWhile isDigit
  if ip.isEmpty then none else
  let after := l.drop ip.length
  if after.isEmpty then some (decToRat ip []) else
  if after.head? = some '.' then
    let fp := after.tail.takeWhile isDigit
    if fp.isEmpty then none
    else if (after.tail.drop fp.length).isEmpty then some (decToRat ip fp)
    else none
  else none

/-- `extractNumber` (part_000 lines 35–43): trim, drop commas, full-string
numeric match, positive and finite. -/
def extractNumber (raw : String) : Option ℚ :=
  let s0 := jsTrim raw.toList
  if s0.isEmpty then none else
  let s := s0.filter (fun c => c ≠ ',')
  match fullNumMatch s with
  | none => none
  | some n => if n ≤ 0 then none else some n

/-- Leftmost match of `/[0-9]+(?:\.[0-9]+)?/` anywhere in the string: at
the first digit take all consecutive digits, then a fractional part only
when a dot directly followed by a digit comes next. -/
def findNumToken : Nat → List Char → Option ℚ
  | 0, _ => none
  | _ + 1, [] => none
  | fuel + 1, c :: rest =>
    if isDigit c then
      let ip := (c :: rest).takeWhile isDigit
      let after := (c :: rest).drop ip.length
      if after.head? = some '.' then
        let fp := after.tail.takeWhile isDigit
        if fp.isEmpty then some (decToRat ip []) else some (decToRat ip fp)
      else some (decToRat ip [])
    else
      findNumToken fuel rest

/-- `extractNumberToken` (part_000 lines 45–53): trim, drop commas, first
numeric token anywhere in the string, positive and finite. -/
def extractNumberToken (raw : String) : Option ℚ :=
  let s0 := jsTrim raw.toList
  if s0.isEmpty then none else
  let s := s0.filter (fun c => c ≠ ',')
  match findNumToken s.length s with
  | none => none
  | some n => if n ≤ 0 then none else some n

/-- `post` (part_000 lines 100–118): record the sample, then throttle to one
message per 50ms, suppress an identical value for 350ms (heartbeat), and
post `{__rhwidget: true, type: "cursor_price", price, ts}`. -/
def post (st : SenderState) (now wall : ℚ) (price : ℚ) : SenderState × Option Msg :=
  if price ≤ 0 then (st, none)
  else
    let st := { st with cursorPrice := some price }
    if now - st.lastSent < 50 then (st, none)
    else if st.lastSentPrice = some price ∧ now - st.lastSent < 350 then (st, none)
    else ({ st with lastSent := now, lastSentPrice := some price },
          some { marker := true, kind := "cursor_price", price := price, ts := wall })

/-- Messages actually posted by a sequence of `post` invocations, each paired
with its `performance.now()` instant. -/
def postTrace : SenderState → List PostEvent → List (ℚ × Msg)
  | _, [] => []
  | st, e :: rest =>
    match post st e.now e.wall e.price with
    | (st', none) => postTrace st' rest
    | (st', some m) => (e.now, m) :: postTrace st' rest

/-- The wrapped `fillRect` (part_000 lines 259–264): remember fill style and
timestamp of rectangles in the 28–260 × 14–80 price-badge size band. -/
def fillRectStep (lastRect : Option LastRect) (now : ℚ) (w h : ℚ)
    (fillStyle : String) : Option LastRect :=
  if 28 < w ∧ w < 260 ∧ 14 < h ∧ h < 80 then some ⟨now, fillStyle⟩ else lastRect

/-- Vertical distance from the drawn text to the pointer, in canvas
coordinates (part_000 lines 272–285): 9999 when the pointer is unknown or
the canvas client rect is degenerate. -/
def dyOfMouse (cy : Option ℚ) (rectTop rectHeight canvasHeight y : ℚ) : ℚ :=
  match cy with
  | none => 9999
  | some cy =>
    if 0 < rectHeight then |y - (cy - rectTop) * (canvasHeight / rectHeight)| else 9999

/-- The `recent && isNeutralDark(...) && !isGreen(...) && !isRed(...)` badge
test of both wrapped `fillText`s; the recency window `ageMs` is 12 in the
standalone reader and 10 in the inlined one. -/
def badgeOk (lastRect : Option LastRect) (now ageMs : ℚ) : Bool :=
  match lastRect with
  | none => false
  | some lr =>
    decide (now - lr.t < ageMs) &&
      (isNeutralDark lr.fill && !isGreen lr.fill && !isRed lr.fill)

/-- Values the wrapped `fillText` (part_000 lines 266–301) forwards to
`post`: the crosshair-exact path (`dy < 10`) fires first, then the
neutral-dark badge path (`bgOk ∧ dy < 35`). -/
def fillTextPosts (text : String) (x y canvasWidth canvasHeight : ℚ)
    (cy : Option ℚ) (rectTop rectHeight : ℚ)
    (lastRect : Option LastRect) (now : ℚ) : List ℚ :=
  match extractNumberToken text with
  | none => []
  | some val =>
    if canvasWidth * 72 / 100 < x then
      let dy := dyOfMouse cy rectTop rectHeight canvasHeight y
      let bgOk := badgeOk lastRect now 12
      (if dy < 10 then [val] else []) ++ (if bgOk = true ∧ dy < 35 then [val] else [])
    else []

/-- Sequential `post` calls made by one wrapped `fillText` invocation (the
two emission paths can both fire, in which case `post` runs twice at the
same instant and the second call is throttled). -/
def senderRun (st : SenderState) (now wall : ℚ) (vals : List ℚ) :
    SenderState × List (ℚ × Msg) :=
  vals.foldl (fun acc v =>
    match post acc.1 now wall v with
    | (st', none) => (st', acc.2)
    | (st', some m) => (st', acc.2 ++ [(now, m)])) (st, [])

/-- Per-canvas interception state: the sender state plus the remembered
badge rectangle. -/
structure ReaderState where
  sender : SenderState
  lastRect : Option LastRect
deriving DecidableEq

/-- One draw call through the standalone reader's wrapped context. The
pointer is modelled at identity geometry (canvas client rect at top 0 with
height equal to its pixel height), so the tracked `clientY` is the canvas-
space pointer position shared with the inlined reader. -/
def readerStep (cw ch : ℚ) (st : ReaderState) : CanvasEvent → ReaderState × List (ℚ × Msg)
  | .rect now w h fill =>
    ({ st with lastRect := fillRectStep st.lastRect now w h fill }, [])
  | .text now wall txt x y mouseY =>
    let vals := fillTextPosts txt x y cw ch mouseY 0 ch st.lastRect now
    let out := senderRun st.sender now wall vals
    ({ st with sender := out.1 }, out.2)

/-- Messages emitted by the standalone reader over a draw-call sequence. -/
def runReader (cw ch : ℚ) : ReaderState → List CanvasEvent → List (ℚ × Msg)
  | _, [] => []
  | st, e :: rest =>
    let out := readerStep cw ch st e
    out.2 ++ runReader cw ch out.1 rest

end Standalone

namespace Inline

/-! Embedding of the injected reader script inlined in
`src/extension/content.js` (lines 1442–1589). Its `parseRgb`, `isGreen`,
`isRed`, `isNeutralDark` and wrapped `fillRect` are textually identical to
the standalone reader's, so they are shared by definition. -/

def parseRgb : String → Option Rgb := Standalone.parseRgb

def isGreen : String → Bool := Standalone.isGreen

def isRed : String → Bool := Standalone.isRed

def isNeutralDark : String → Bool := Standalone.isNeutralDark

def fillRectStep : Option LastRect → ℚ → ℚ → ℚ → String → Option LastRect :=
  Standalone.fillRectStep

/-- `send` (content.js lines 1499–1513): like the standalone `post` but with
unconditional deduplication of the previously sent value (no 350ms
heartbeat clause). -/
def send (st : SenderState) (now wall : ℚ) (price : ℚ) : SenderState × Option Msg :=
  if price ≤ 0 then (st, none)
  else
    let st := { st with cursorPrice := some price }
    if now - st.lastSent < 50 then (st, none)
    else if st.lastSentPrice = some price then (st, none)
    else ({ st with lastSent := now, lastSentPrice := some price },
          some { marker := true, kind := "cursor_price", price := price, ts := wall })

/-- Messages actually posted by a sequence of `send` invocations. -/
def sendTrace : SenderState → List PostEvent → List (ℚ × Msg)
  | _, [] => []
  | st, e :: rest =>
    match send st e.now e.wall e.price with
    | (st', none) => sendTrace st' rest
    | (st', some m) => (e.now, m) :: sendTrace st' rest

/-- Vertical distance from the drawn text to the tracked pointer
(content.js line 1540): 9999 when no mousemove has been seen. -/
def dyOfMouse (mouseYCanvas : Option ℚ) (y : ℚ) : ℚ :=
  match mouseYCanvas with
  | none => 9999
  | some m => |y - m|

/-- Values the inlined wrapped `fillText` (content.js lines 1533–1550)
forwards to `send`: the text must be a full numeric string, drawn in the
right-hand 28% of the canvas, within 35px of the tracked pointer, over a
recently (under 10ms) remembered neutral-dark badge rectangle. -/
def fillTextSends (text : String) (x y canvasWidth : ℚ)
    (mouseYCanvas : Option ℚ) (lastRect : Option LastRect) (now : ℚ) : List ℚ :=
  match Standalone.fullNumMatch (jsTrim text.toList) with
  | none => []
  | some val =>
    if 0 < val then
      let nearRight := decide (canvasWidth * 72 / 100 < x)
      let dy := dyOfMouse mouseYCanvas y
      let bgOk := Standalone.badgeOk lastRect now 10
      if nearRight && bgOk && decide (dy < 35) then [val] else []
    else []

/-- Sequential `send` calls made by one wrapped `fillText` invocation. -/
def senderRun (st : SenderState) (now wall : ℚ) (vals : List ℚ) :
    SenderState × List (ℚ × Msg) :=
  vals.foldl (fun acc v =>
    match send acc.1 now wall v with
    | (st', none) => (st', acc.2)
    | (st', some m) => (st', acc.2 ++ [(now, m)])) (st, [])

/-- One draw call through the inlined reader's wrapped context (the canvas
pixel height plays no role in its pointer distance). -/
def readerStep (cw : ℚ) (st : Standalone.ReaderState) :
    CanvasEvent → Standalone.ReaderState × List (ℚ × Msg)
  | .rect now w h fill =>
    ({ st with lastRect := fillRectStep st.lastRect now w h fill }, [])
  | .text now wall txt x y mouseY =>
    let vals := fillTextSends txt x y cw mouseY st.lastRect now
    let out := senderRun st.sender now wall vals
    ({ st with sender := out.1 }, out.2)

/-- Messages emitted by the inlined reader over a draw-call sequence. -/
def runReader (cw : ℚ) : Standalone.ReaderState → List CanvasEvent → List (ℚ × Msg)
  | _, [] => []
  | st, e :: rest =>
    let out := readerStep cw st e
    out.2 ++ runReader cw out.1 rest

end Inline

namespace Content

/-- `_TICKER_STOPWORDS` (content.js line 1643). -/
def _TICKER_STOPWORDS : List String :=
  ["UNTITLED", "ALL", "EQUITIES", "FUTURES", "CRYPTO", "INDEXES",
   "SYMBOL", "PRICE", "CHANGE", "VOLUME", "FLOAT", "TIME"]

/-- Regex character class `[A-Z0-9]` opening a ticker-like token. -/
def tickerClassA (c : Char) : Bool := isUpperAlpha c || isDigit c

/-- Regex character class `[A-Z0-9.\-]` continuing a ticker-like token. -/
def tickerClassB (c : Char) : Bool := tickerClassA c || c = '.' || c = '-'

/-- Fuel-driven scanner for `tickerTokens` (structural recursion on the fuel
so that the kernel can evaluate it; fuel = list length always suffices since
every step consumes at least one character). -/
def tickerTokensAux : Nat → List Char → List (List Char)
  | 0, _ => []
  | _ + 1, [] => []
  | fuel + 1, c :: rest =>
    if tickerClassA c then
      let body := (rest.takeWhile tickerClassB).take 14
      (c :: body) :: tickerTokensAux fuel (rest.drop body.length)
    else
      tickerTokensAux fuel rest

/-- Global-match semantics of `s.match(/[A-Z0-9][A-Z0-9.\-]{0,14}/g)`:
scan left to right; at the first class-A character take greedily up to 14
further class-B characters, then resume after the token. -/
def tickerTokens (l : List Char) : List (List Char) :=
  tickerTokensAux l.length l

/-- `extractTicker` (content.js lines 1658–1675): uppercase/trim, tokenize,
strip leading digits, require a leading letter, length 1–7, not a stopword,
and keep the longest (first-come on ties) candidate. -/
def extractTicker (raw : String) : String :=
  let s := (jsTrim raw.toList).map Char.toUpper
  if s.isEmpty then "" else
  let candidates := tickerTokens s
  let best := candidates.foldl (fun best c0 =>
    let c := c0.dropWhile isDigit
    if c.isEmpty then best
    else if !(match c.head? with | some h => isUpperAlpha h | none => false) then best
    else if c.length < 1 || 7 < c.length then best
    else if String.mk c ∈ _TICKER_STOPWORDS then best
    else if best.length < c.length then c else best) []
  String.mk best

/-- An RGB triple with alpha as produced by the extension-side `parseRgb`
(content.js lines 2540–2550). `a = none` models a `NaN` alpha (malformed
`[0-9.]+` capture); when the capture is absent the code sets `a = 1`. -/
structure Rgba where
  r : Nat
  g : Nat
  b : Nat
  a : Option ℚ
deriving DecidableEq

/-- `Number(s)` on a nonempty string of digits and dots (the `[0-9.]+`
alpha capture): at most one dot and at least one digit, else `NaN`
(modelled `none`). -/
def jsNumOfAlpha (l : List Char) : Option ℚ :=
  match l.splitOn '.' with
  | [ip] => some (decToRat ip [])
  | [ip, fp] => if ip.isEmpty && fp.isEmpty then none else some (decToRat ip fp)
  | _ => none

/-- `\s*` consumption followed by a required character. -/
def skipWsThen (c : Char) (l : List Char) : Option (List Char) :=
  match l.dropWhile isWs with
  | c' :: rest => if c' = c then some rest else none
  | [] => none

/-- Body of the extension-side color regex after `rgba?\(`:
`\s*(\d+)\s*,\s*(\d+)\s*,\s*(\d+)(?:\s*,\s*([0-9.]+))?\s*\)`. -/
def matchRgbaBody (l : List Char) : Option Rgba := do
  let (d1, l) ← parseDigits1 (l.dropWhile isWs)
  let l ← skipWsThen ',' l
  let (d2, l) ← parseDigits1 (l.dropWhile isWs)
  let l ← skipWsThen ',' l
  let (d3, l) ← parseDigits1 (l.dropWhile isWs)
  let withAlpha : Option (Option ℚ × List Char) :=
    match skipWsThen ',' l with
    | none => none
    | some l2 =>
      let l2 := l2.dropWhile isWs
      let ds := l2.takeWhile (fun c => isDigit c || c = '.')
      if ds.isEmpty then none else some (jsNumOfAlpha ds, l2.drop ds.length)
  let (a, l) := match withAlpha with
    | some (aVal, l3) => (aVal, l3)
    | none => (some 1, l)
  match skipWsThen ')' l with
  | none => none
  | some _ => some ⟨natOfDigits d1, natOfDigits d2, natOfDigits d3, a⟩

def lowerEq (c target : Char) : Bool := Char.toLower c = target

/-- Try `rgba?\(` (case-insensitive) at the current position. -/
def matchRgbaAt (l : List Char) : Option Rgba :=
  match l with
  | c1 :: c2 :: c3 :: rest =>
    if lowerEq c1 'r' && lowerEq c2 'g' && lowerEq c3 'b' then
      match rest with
      | c4 :: '(' :: rest2 => if lowerEq c4 'a' then matchRgbaBody rest2 else none
      | '(' :: rest2 => matchRgbaBody rest2
      | _ => none
    else none
  | _ => none

/-- Leftmost match of the extension-side color regex. If the optional alpha
group participates but the overall match would then miss its closing
parenthesis, the JS engine backtracks to the group being absent; that
backtracking is modelled by retrying the body without the alpha branch. -/
def findRgba : Nat → List Char → Option Rgba
  | 0, _ => none
  | _ + 1, [] => none
  | fuel + 1, c :: rest =>
    match matchRgbaAt (c :: rest) with
    | some rgba => some rgba
    | none => findRgba fuel rest

/-- `parseRgb` (content.js lines 2540–2550): functional notation only, with
optional alpha, matched anywhere in the string, case-insensitively. -/
def parseRgb (cssColor : String) : Option Rgba :=
  let s := cssColor.toList
  findRgba s.length s

/-- `colorLuma01` (content.js lines 2552–2558): BT.709 luminance of the
0–255-clamped channels, 0 for a missing color. -/
def colorLuma01 (rgb : Option Rgba) : ℚ :=
  match rgb with
  | none => 0
  | some c =>
    let r : ℚ := (min c.r 255 : ℕ) / 255
    let g : ℚ := (min c.g 255 : ℕ) / 255
    let b : ℚ := (min c.b 255 : ℕ) / 255
    2126 / 10000 * r + 7152 / 10000 * g + 722 / 10000 * b

/-- `extractPrice` (content.js lines 2528–2538): trim, drop commas, first
`-?\d+(\.\d+)?` token anywhere, keep only finite positives. -/
def numTokenAt (l : List Char) : Option ℚ :=
  let ip := l.takeWhile isDigit
  if ip.isEmpty then none else
  match l.drop ip.length with
  | '.' :: r2 =>
    let fp := r2.takeWhile isDigit
    if fp.isEmpty then some (decToRat ip []) else some (decToRat ip fp)
  | _ => some (decToRat ip [])

def findSignedNumToken : Nat → List Char → Option ℚ
  | 0, _ => none
  | _ + 1, [] => none
  | fuel + 1, c :: rest =>
    if c = '-' then
      match numTokenAt rest with
      | some v => some (-v)
      | none => findSignedNumToken fuel rest
    else
      match numTokenAt (c :: rest) with
      | some v => some v
      | none => findSignedNumToken fuel rest

def extractPrice (raw : String) : Option ℚ :=
  let s0 := jsTrim raw.toList
  if s0.isEmpty then none else
  let s := s0.filter (fun c => c ≠ ',')
  match findSignedNumToken s.length s with
  | none => none
  | some n => if n ≤ 0 then none else some n

/-- Data the calibration loop reads from one candidate element: the raw
text (`elementTextOrValue(el) || aria-label || title || ""`), its client
rectangle, and its computed foreground/background color strings. The
`document.elementsFromPoint` grid sampling that produces the candidate set
is environmental and is modelled by the candidate list itself. -/
structure ElemInfo where
  raw : String
  rectTop : ℚ
  rectWidth : ℚ
  rectHeight : ℚ
  fgStyle : String
  bgStyle : String

/-- A surviving calibration sample: row center and parsed price. -/
structure Point where
  y : ℚ
  p : ℚ
deriving DecidableEq

/-- Dedup key `price.toFixed(4) @ Math.round(yCenter)` (content.js
line 2659), modelled by rounding (prices here are positive, where
`toFixed` and `Math.round` agree with round-half-up). -/
def pointKey (price yCenter : ℚ) : ℤ × ℤ := (round (price * 10000), round yCenter)

/-- Filter body of `detectCursorPriceFromScale` (content.js lines
2620–2663) for one candidate element. -/
def elPoint (top bottom : ℚ) (el : ElemInfo) : Option Point :=
  match extractPrice el.raw with
  | none => none
  | some price =>
    if el.rectWidth ≤ 0 ∨ el.rectHeight ≤ 0 then none else
    let yCenter := el.rectTop + el.rectHeight / 2
    if yCenter < top - 2 ∨ bottom + 2 < yCenter then none else
    let fg := parseRgb el.fgStyle
    let bg := parseRgb el.bgStyle
    let luma := colorLuma01 fg
    let channelSpread01 : ℚ := match fg with
      | none => 1
      | some c => ((max (max c.r c.g) c.b : ℕ) - (min (min c.r c.g) c.b : ℕ) : ℕ) / 255
    let minRgb01 : ℚ := match fg with
      | none => 0
      | some c => (min (min c.r c.g) c.b : ℕ) / 255
    let redBias : ℚ := match fg with
      | none => 0
      | some c => (c.r : ℚ) / 255 - ((c.g : ℚ) + (c.b : ℚ)) / (2 * 255)
    let hasBg := match bg with
      | none => false
      | some c => match c.a with
        | none => false
        | some q =>
          decide (1 / 20 < q) &&
            !(decide (c.r = 0) && decide (c.g = 0) && decide (c.b = 0) && decide (q = 0))
    if hasBg then none
    else if 9 / 10 < luma then none
    else if luma < 22 / 100 then none
    else if 92 / 100 < minRgb01 then none
    else if 14 / 100 < channelSpread01 then none
    else if 18 / 100 < |redBias| then none
    else some ⟨yCenter, price⟩

/-- The deduplicated list of surviving sample points, in candidate order. -/
def collectPoints (top bottom : ℚ) (els : List ElemInfo) : List Point :=
  (els.foldl (fun (acc : List Point × List (ℤ × ℤ)) el =>
    match elPoint top bottom el with
    | none => acc
    | some pt =>
      let key := pointKey pt.p pt.y
      if key ∈ acc.2 then acc else (acc.1 ++ [pt], key :: acc.2)) ([], [])).1

def sumY (pts : List Point) : ℚ := (pts.map Point.y).sum

def sumP (pts : List Point) : ℚ := (pts.map Point.p).sum

def sumYY (pts : List Point) : ℚ := (pts.map (fun pt => pt.y * pt.y)).sum

def sumYP (pts : List Point) : ℚ := (pts.map (fun pt => pt.y * pt.p)).sum

/-- Least-squares fit `p = a*y + b` of `detectCursorPriceFromScale`
(content.js lines 2665–2682): at least 3 points, and the denominator
`n*Σy² − (Σy)²` must clear the 1e-6 degeneracy guard. -/
def lsFit (pts : List Point) : Option (ℚ × ℚ) :=
  if pts.length < 3 then none else
  let n : ℚ := pts.length
  let denom := n * sumYY pts - sumY pts * sumY pts
  if |denom| < 1 / 1000000 then none else
  let a := (n * sumYP pts - sumY pts * sumP pts) / denom
  let b := (sumP pts - a * sumY pts) / n
  some (a, b)

/-- Client rectangle of the trained axis region. -/
structure RectI where
  left : ℚ
  top : ℚ
  right : ℚ
  bottom : ℚ

/-- `detectCursorPriceFromScale` (content.js lines 2591–2686), from the
candidate elements produced by the grid sampling. Over `ℚ` the evaluated
price is always finite, so `!Number.isFinite(out)` never fires; the
remaining guards are modelled exactly. -/
def detectCursorPriceFromScale (els : List ElemInfo) (regionRect : RectI)
    (yBase : ℚ) : Option ℚ :=
  let w := regionRect.right - regionRect.left
  let h := regionRect.bottom - regionRect.top
  if w < 6 ∨ h < 24 then none else
  let pts := collectPoints regionRect.top regionRect.bottom els
  match lsFit pts with
  | none => none
  | some (a, b) =>
    let out := a * yBase + b
    if out ≤ 0 then none else some out

/-- `CURSOR_STALE_MS` (content.js line 2688). -/
def CURSOR_STALE_MS : ℚ := 800

/-- `detectCursorPrice` (content.js lines 2690–2694): expose the cached
frame price only while strictly younger than the staleness window. -/
def detectCursorPrice (lastFrameCursorPrice : Option ℚ)
    (lastFrameCursorTs now : ℚ) : Option ℚ :=
  match lastFrameCursorPrice with
  | none => none
  | some p => if now - lastFrameCursorTs < CURSOR_STALE_MS then some p else none

/-- The element kinds `writeIntoElement`/`isTypeable` distinguish. -/
inductive El
  | inputLike (disabled rdOnly : Bool)
  | contentEditable
  | other
deriving DecidableEq

/-- `isTypeable` (content.js lines 220–225 of the widget document):
inputs/textareas and contenteditable hosts. -/
def isTypeable : Option El → Bool
  | none => false
  | some (.inputLike _ _) => true
  | some .contentEditable => true
  | some .other => false

/-- `writeIntoElement` (content.js lines 1942–1996): reports success for a
non-disabled, non-readonly input/textarea (dispatch is treated as success
even if a controlled input immediately rewrites `value`) and for a
contenteditable host; fails on a missing target, a disabled/readonly
input, or any other element. -/
def writeIntoElement (el : Option El) (_text : String) : Bool :=
  match el with
  | none => false
  | some (.inputLike disabled rdOnly) => if disabled || rdOnly then false else true
  | some .contentEditable => true
  | some .other => false

/-- Environmental outcomes of the DOM interactions inside
`activateSymbol`: the resolved elements and the results of the
`execCommand` fallback and the two suggestion-click attempts. -/
structure ActEnv where
  typeEl : Option El
  activeEl : Option El
  fallbackInput : Option El
  execInsertOk : Bool
  suggestionClick1 : Bool
  suggestionClick2 : Bool

/-- Target resolution in `activateSymbol` (content.js lines 2338–2343). -/
def resolveTarget (env : ActEnv) : Option El :=
  if isTypeable env.typeEl then env.typeEl
  else if isTypeable env.activeEl then env.activeEl
  else if isTypeable env.fallbackInput then env.fallbackInput
  else none

/-- Observable outcome of one `activateSymbol` call. -/
structure ActResult where
  returned : Bool
  clipboardCopied : Bool
  lastActivatedSymbol : String
deriving DecidableEq

/-- `activateSymbol` (content.js lines 2306–2402). `lastActivatedSymbol`
is assigned as soon as the ticker validates, before any write is
attempted; a successful suggestion click returns `true` before the
`wrote` bookkeeping is consulted; the clipboard fallback plus `false`
happen only when nothing was written and no suggestion was clicked. -/
def activateSymbol (env : ActEnv) (lastActivatedSymbol : String)
    (symbol : String) : ActResult :=
  let s := extractTicker symbol
  if s = "" then ⟨false, false, lastActivatedSymbol⟩
  else
    let last := s
    let target := resolveTarget env
    let wrote := writeIntoElement target s
    let wrote := if wrote then wrote else env.execInsertOk || wrote
    if env.suggestionClick1 then ⟨true, false, last⟩
    else if env.suggestionClick2 then ⟨true, false, last⟩
    else if wrote then ⟨true, false, last⟩
    else ⟨false, true, last⟩

/-- Normalized trained region `{x,y,w,h}` in viewport fractions. -/
structure Region01 where
  x : ℚ
  y : ℚ
  w : ℚ
  h : ℚ

/-- Data read from one element overlapping the trained region. -/
structure RegionEl where
  left : ℚ
  top : ℚ
  width : ℚ
  height : ℚ
  raw : String
  isWidgetUi : Bool
  isRootEl : Bool

/-- `scoreEl` of the region strategy (content.js lines 2435–2463). -/
def scoreRegionEl (rLeft rTop rRight rBottom rArea : ℚ) (el : RegionEl) :
    Option (String × ℚ) :=
  if el.isWidgetUi then none
  else if el.isRootEl then none
  else if el.width ≤ 0 ∨ el.height ≤ 0 then none
  else
    let left := max rLeft el.left
    let top := max rTop el.top
    let right := min rRight (el.left + el.width)
    let bottom := min rBottom (el.top + el.height)
    let iw := right - left
    let ih := bottom - top
    if iw ≤ 0 ∨ ih ≤ 0 then none else
    let iArea := iw * ih
    let overlap := iArea / max 1 rArea
    if overlap < 1 / 4 then none else
    let rectArea := el.width * el.height
    if rArea * 6 < rectArea then none else
    let sym := extractTicker el.raw
    if sym = "" then none else
    some (sym, overlap * 100 - rectArea / max 1 rArea + (sym.length : ℚ) * 2)

/-- Best-scoring region element (strict improvement keeps the first
maximum, as in `scored.score > best.score`). -/
def bestRegionSym (rLeft rTop rRight rBottom rArea : ℚ)
    (els : List RegionEl) : Option String :=
  (els.foldl (fun best el =>
    match scoreRegionEl rLeft rTop rRight rBottom rArea el with
    | none => best
    | some (sym, sc) =>
      match best with
      | none => some (sym, sc)
      | some (bs, bsc) => if bsc < sc then some (sym, sc) else some (bs, bsc))
    none).map Prod.fst

/-- One candidate of the heuristic attribute scan (strategy 4). -/
structure HeurEl where
  text : String
  visible : Bool
  inWidget : Bool

/-- Strategy 4 scan (content.js lines 2502–2523): first visible,
non-widget element whose text validates. -/
def firstHeuristicSym : List HeurEl → String
  | [] => ""
  | e :: rest =>
    if e.inWidget then firstHeuristicSym rest
    else if !e.visible then firstHeuristicSym rest
    else
      let sym := extractTicker e.text
      if sym = "" then firstHeuristicSym rest else sym

/-- Environmental inputs of one `detectActiveSymbol` pass: configuration,
viewport, and the texts each strategy would read from the live DOM. -/
structure DetectEnv where
  region : Option Region01
  vw : ℚ
  vh : ℚ
  regionEls : List RegionEl
  trainedPathText : Option String
  typeElText : String
  activeElText : String
  urlSymbol : Option String
  heuristicEls : List HeurEl

/-- The region strategy (content.js lines 2404–2472), including the
floor-to-pixel conversion and the `rw > 5 ∧ rh > 5` gate. -/
def detectRegionSym (env : DetectEnv) : Option String :=
  match env.region with
  | none => none
  | some region =>
    let vw := max 1 env.vw
    let vh := max 1 env.vh
    let rx : ℤ := ⌊region.x * vw⌋
    let ry : ℤ := ⌊region.y * vh⌋
    let rw : ℤ := ⌊region.w * vw⌋
    let rh : ℤ := ⌊region.h * vh⌋
    if 5 < rw ∧ 5 < rh then
      bestRegionSym (rx : ℚ) (ry : ℚ) ((rx + rw : ℤ) : ℚ) ((ry + rh : ℤ) : ℚ)
        ((rw * rh : ℤ) : ℚ) env.regionEls
    else none

/-- `detectActiveSymbol` (content.js lines 2404–2526): the ordered strategy
chain, falling back to `lastActivatedSymbol` when every strategy fails. -/
def detectActiveSymbol (env : DetectEnv) (lastActivatedSymbol : String) : String :=
  match detectRegionSym env with
  | some s => s
  | none =>
    let fromTrained := extractTicker (env.trainedPathText.getD "")
    if fromTrained ≠ "" then fromTrained else
    let fromTypeEl := extractTicker env.typeElText
    if fromTypeEl ≠ "" then fromTypeEl else
    let fromActive := extractTicker env.activeElText
    if fromActive ≠ "" then fromActive else
    let qs := extractTicker (env.urlSymbol.getD "")
    if qs ≠ "" then qs else
    let h := firstHeuristicSym env.heuristicEls
    if h ≠ "" then h else
    lastActivatedSymbol

/-- Three exactly-colinear sample points (`p = y + 5`) with distinct y
spanning only 2e-4 pixels: the least-squares denominator is 6e-8, below
the 1e-6 degeneracy guard. -/
def tinySpanPts : List Point :=
  [⟨0, 5⟩, ⟨1 / 10000, 5 + 1 / 10000⟩, ⟨2 / 10000, 5 + 2 / 10000⟩]

/-- Three exactly-colinear sample points (`p = y + 5`) with a healthy
y-spread, used to evaluate the fit on a concrete input. -/
def linePts : List Point :=
  [⟨0, 5⟩, ⟨100, 105⟩, ⟨200, 205⟩]

end Content

/-! ## Claim theorems -/

/-- C1 (amended): ticker extraction maps `"5AAPL"` to `"AAPL"`, `"SYMBOL"`
to `""` (stopword), `"BRK.B"` to `"BRK.B"`, and `"toolongwordstring"` to
`"NG"` — the 15-character token window splits the over-long word into
`"TOOLONGWORDSTRI"` (rejected by the length bound) and the residue `"NG"`,
which survives validation. -/
theorem c1_extractTicker_examples :
    Content.extractTicker "5AAPL" = "AAPL" ∧
    Content.extractTicker "SYMBOL" = "" ∧
    Content.extractTicker "BRK.B" = "BRK.B" ∧
    Content.extractTicker "toolongwordstring" = "NG" := by
  decide

/-- C1 counterexample: contrary to the claim, `"toolongwordstring"` does
not map to `""` — the scanner's trailing residue `"NG"` is emitted. -/
theorem c1_extractTicker_toolong_counterexample :
    Content.extractTicker "toolongwordstring" ≠ "" := by
  decide

/-- C6 (amended): the channel classifier uses strict thresholds — a green
channel strictly above 150 and strictly more than 40 above both other
channels classifies as green, symmetrically for red, and no triple is ever
both green and red. -/
theorem c6_classifier_thresholds (c : Rgb) :
    (150 < c.g → c.r + 40 < c.g → c.b + 40 < c.g → Standalone.isGreenRgb c = true) ∧
    (150 < c.r → c.g + 40 < c.r → c.b + 40 < c.r → Standalone.isRedRgb c = true) ∧
    ¬(Standalone.isGreenRgb c = true ∧ Standalone.isRedRgb c = true) := by
  simp only [Standalone.isGreenRgb, Standalone.isRedRgb, Bool.and_eq_true,
    decide_eq_true_eq]
  omega

/-- C6 witness: the strict-threshold triple (0, 200, 0) classifies green. -/
theorem c6_classifier_thresholds_witness :
    Standalone.isGreenRgb ⟨0, 200, 0⟩ = true :=
  (c6_classifier_thresholds ⟨0, 200, 0⟩).1 (by decide) (by decide) (by decide)

/-- C6 counterexample: the boundary triple (0, 150, 0) satisfies the
claim's `≥ 150` / `≥ 40`-margin premise but the classifier requires strict
inequalities and returns false. -/
theorem c6_ge_boundary_counterexample :
    150 ≤ (⟨0, 150, 0⟩ : Rgb).g ∧
    (⟨0, 150, 0⟩ : Rgb).r + 40 ≤ (⟨0, 150, 0⟩ : Rgb).g ∧
    (⟨0, 150, 0⟩ : Rgb).b + 40 ≤ (⟨0, 150, 0⟩ : Rgb).g ∧
    Standalone.isGreenRgb ⟨0, 150, 0⟩ = false ∧
    Standalone.isGreen "rgb(0, 150, 0)" = false := by
  decide

/-- C7: a cached cursor-price sample is reported exactly while its age is
strictly below the 800ms staleness threshold; a 900ms-old sample is
reported unknown, a 700ms-old one is still reported. -/
theorem c7_cursor_staleness (p ts now : ℚ) :
    (Content.detectCursorPrice (some p) ts now = some p ↔ now - ts < 800) ∧
    Content.detectCursorPrice (some p) ts (ts + 900) = none ∧
    Content.detectCursorPrice (some p) ts (ts + 700) = some p := by
  refine ⟨?_, ?_, ?_⟩ <;>
    simp only [Content.detectCursorPrice, Content.CURSOR_STALE_MS]
  · split_ifs with h <;> simp [h]
  · have h : ¬(ts + 900 - ts < 800) := by ring_nf; norm_num
    simp only [h, if_false]
  · have h : ts + 700 - ts < 800 := by ring_nf; norm_num
    simp only [h, if_true]

/-- C7 witness: a 700ms-old sample of value 5 is reported. -/
theorem c7_cursor_staleness_witness :
    Content.detectCursorPrice (some 5) 0 (0 + 700) = some 5 :=
  (c7_cursor_staleness 5 0 700).2.2

/-- C2 counterexample: with no writable target (the write fails) but a
successful suggestion click, `activateSymbol` reports success and does not
copy to the clipboard — refuting both "success iff a write succeeded" and
the unconditional clipboard-on-no-write rule. -/
theorem c2_activateSymbol_counterexample :
    Content.writeIntoElement
      (Content.resolveTarget ⟨none, none, none, false, true, false⟩) "TSLA" = false ∧
    (Content.activateSymbol ⟨none, none, none, false, true, false⟩ "" "TSLA").returned = true ∧
    (Content.activateSymbol ⟨none, none, none, false, true, false⟩ "" "TSLA").clipboardCopied
      = false := by
  decide

/-- C2 (amended): for a valid ticker, `activateSymbol` reports success iff
a suggestion click accepted the symbol or the value was written (by
`writeIntoElement` or the `execCommand` fallback); it copies the symbol to
the clipboard and reports failure exactly when neither happened. The
synthetic Enter fallback never influences the outcome. -/
theorem c2_activateSymbol_outcome (env : Content.ActEnv) (last symbol : String)
    (h : Content.extractTicker symbol ≠ "") :
    ((Content.activateSymbol env last symbol).returned = true ↔
      (env.suggestionClick1 || env.suggestionClick2 ||
        (Content.writeIntoElement (Content.resolveTarget env)
            (Content.extractTicker symbol) ||
          env.execInsertOk)) = true) ∧
    ((Content.activateSymbol env last symbol).clipboardCopied = true ↔
      (env.suggestionClick1 || env.suggestionClick2 ||
        (Content.writeIntoElement (Content.resolveTarget env)
            (Content.extractTicker symbol) ||
          env.execInsertOk)) = false) := by
  obtain ⟨te, ae, fi, ex, s1, s2⟩ := env
  cases hw : Content.writeIntoElement
      (Content.resolveTarget ⟨te, ae, fi, ex, s1, s2⟩)
      (Content.extractTicker symbol) <;>
    cases s1 <;> cases s2 <;> cases ex <;>
      simp_all [Content.activateSymbol]

/-- C2 witness: with a writable input bound and no suggestion click, the
call reports success. -/
theorem c2_activateSymbol_outcome_witness :
    (Content.activateSymbol ⟨some (.inputLike false false), none, none, false, false, false⟩
      "" "TSLA").returned = true :=
  (c2_activateSymbol_outcome ⟨some (.inputLike false false), none, none, false, false, false⟩
    "" "TSLA" (by decide)).1.mpr (by decide)

/-- C8 counterexample: an `activateSymbol` call that reports failure still
installs its symbol as the fallback, and a detection pass in which every
strategy fails returns that symbol — although no activation ever reported
success — refuting "the fallback equals the symbol of the most recent
successful activation". -/
theorem c8_fallback_counterexample :
    (Content.activateSymbol ⟨none, none, none, false, false, false⟩ "" "TSLA").returned
      = false ∧
    (Content.activateSymbol ⟨none, none, none, false, false, false⟩ ""
        "TSLA").lastActivatedSymbol = "TSLA" ∧
    Content.detectActiveSymbol ⟨none, 1000, 800, [], none, "", "", none, []⟩ "TSLA"
      = "TSLA" := by
  decide

/-- C8 (amended): when every detection strategy fails,
`detectActiveSymbol` returns `lastActivatedSymbol`; that fallback is the
ticker of the most recent `activateSymbol` call whose argument passed
validation, whether or not that call reported success. -/
theorem c8_fallback_last_valid (env : Content.DetectEnv) (aenv : Content.ActEnv)
    (last sym : String)
    (h0 : Content.detectRegionSym env = none)
    (h1 : Content.extractTicker (env.trainedPathText.getD "") = "")
    (h2 : Content.extractTicker env.typeElText = "")
    (h3 : Content.extractTicker env.activeElText = "")
    (h4 : Content.extractTicker (env.urlSymbol.getD "") = "")
    (h5 : Content.firstHeuristicSym env.heuristicEls = "") :
    Content.detectActiveSymbol env last = last ∧
    (Content.activateSymbol aenv last sym).lastActivatedSymbol =
      (if Content.extractTicker sym = "" then last else Content.extractTicker sym) := by
  constructor
  · simp [Content.detectActiveSymbol, h0, h1, h2, h3, h4, h5]
  · by_cases hs : Content.extractTicker sym = ""
    · simp [Content.activateSymbol, hs]
    · simp only [Content.activateSymbol, hs, if_false]
      split_ifs <;> rfl

/-- C8 witness: with all strategies failing, detection returns the stored
fallback symbol. -/
theorem c8_fallback_last_valid_witness :
    Content.detectActiveSymbol ⟨none, 1000, 800, [], none, "", "", none, []⟩ "AAPL"
      = "AAPL" :=
  (c8_fallback_last_valid ⟨none, 1000, 800, [], none, "", "", none, []⟩
    ⟨none, none, none, false, false, false⟩ "AAPL" "X"
    rfl (by decide) (by decide) (by decide) (by decide) (by decide)).1

/-! Helper lemmas for the calibration fit. -/

theorem sumY_const (pts : List Content.Point) (c : ℚ) (h : ∀ pt ∈ pts, pt.y = c) :
    Content.sumY pts = pts.length * c := by
  induction pts with
  | nil => simp [Content.sumY]
  | cons p t ih =>
    have hp := h p (List.mem_cons_self p t)
    have ht : ∀ pt ∈ t, pt.y = c := fun pt hpt => h pt (List.mem_cons_of_mem _ hpt)
    simp only [Content.sumY, List.map_cons, List.sum_cons, List.length_cons] at *
    rw [hp, ih ht]
    push_cast
    ring

theorem sumYY_const (pts : List Content.Point) (c : ℚ) (h : ∀ pt ∈ pts, pt.y = c) :
    Content.sumYY pts = pts.length * (c * c) := by
  induction pts with
  | nil => simp [Content.sumYY]
  | cons p t ih =>
    have hp := h p (List.mem_cons_self p t)
    have ht : ∀ pt ∈ t, pt.y = c := fun pt hpt => h pt (List.mem_cons_of_mem _ hpt)
    simp only [Content.sumYY, List.map_cons, List.sum_cons, List.length_cons] at *
    rw [hp, ih ht]
    push_cast
    ring

theorem lsFit_none_of_short (pts : List Content.Point) (h : pts.length < 3) :
    Content.lsFit pts = none := by
  simp [Content.lsFit, h]

theorem lsFit_none_of_denom_small (pts : List Content.Point)
    (h : |(pts.length : ℚ) * Content.sumYY pts - Content.sumY pts * Content.sumY pts|
      < 1 / 1000000) :
    Content.lsFit pts = none := by
  by_cases h1 : pts.length < 3
  · simp [Content.lsFit, h1]
  · simp [Content.lsFit, h1]
    simpa using h

theorem detect_none_of_fit_none (els : List Content.ElemInfo) (rect : Content.RectI)
    (yBase : ℚ)
    (h : Content.lsFit (Content.collectPoints rect.top rect.bottom els) = none) :
    Content.detectCursorPriceFromScale els rect yBase = none := by
  simp only [Content.detectCursorPriceFromScale]
  split_ifs with hwh
  · rfl
  · rw [h]

/-- C4: the axis-calibration fit returns no value when fewer than 3 points
survive filtering, when the least-squares denominator is below the 1e-6
degeneracy guard (in particular whenever all surviving y-coordinates are
equal), and whenever the evaluated price would be non-positive; every
returned price is strictly positive (and, over `ℚ`, finite). -/
theorem c4_calibration_safety (els : List Content.ElemInfo) (rect : Content.RectI)
    (yBase : ℚ) :
    ((Content.collectPoints rect.top rect.bottom els).length < 3 →
      Content.detectCursorPriceFromScale els rect yBase = none) ∧
    (|((Content.collectPoints rect.top rect.bottom els).length : ℚ) *
        Content.sumYY (Content.collectPoints rect.top rect.bottom els) -
        Content.sumY (Content.collectPoints rect.top rect.bottom els) *
        Content.sumY (Content.collectPoints rect.top rect.bottom els)| < 1 / 1000000 →
      Content.detectCursorPriceFromScale els rect yBase = none) ∧
    ((∀ pt ∈ Content.collectPoints rect.top rect.bottom els,
        ∀ pt' ∈ Content.collectPoints rect.top rect.bottom els, pt.y = pt'.y) →
      Content.detectCursorPriceFromScale els rect yBase = none) ∧
    (∀ r, Content.detectCursorPriceFromScale els rect yBase = some r → 0 < r) := by
  refine ⟨?_, ?_, ?_, ?_⟩
  · intro h
    exact detect_none_of_fit_none els rect yBase (lsFit_none_of_short _ h)
  · intro h
    exact detect_none_of_fit_none els rect yBase (lsFit_none_of_denom_small _ h)
  · intro h
    cases hpts : Content.collectPoints rect.top rect.bottom els with
    | nil =>
      refine detect_none_of_fit_none els rect yBase ?_
      rw [hpts]
      exact lsFit_none_of_short [] (by simp)
    | cons p t =>
      have hall : ∀ pt ∈ Content.collectPoints rect.top rect.bottom els, pt.y = p.y := by
        intro pt hpt
        exact h pt hpt p (by rw [hpts]; exact List.mem_cons_self p t)
      refine detect_none_of_fit_none els rect yBase ?_
      refine lsFit_none_of_denom_small _ ?_
      rw [sumY_const _ p.y hall, sumYY_const _ p.y hall]
      have : ((Content.collectPoints rect.top rect.bottom els).length : ℚ) *
          ((Content.collectPoints rect.top rect.bottom els).length * (p.y * p.y)) -
          (Content.collectPoints rect.top rect.bottom els).length * p.y *
          ((Content.collectPoints rect.top rect.bottom els).length * p.y) = 0 := by
        ring
      rw [this]
      norm_num
  · intro r hr
    simp only [Content.detectCursorPriceFromScale] at hr
    split_ifs at hr with h1
    revert hr
    split
    · intro hr
      exact Option.noConfusion hr
    · rename_i a b heq
      split_ifs with h2
      · intro hr
        exact hr.elim
      · intro hr
        have hr' : a * yBase + b = r := by injection hr
        linarith [not_le.mp h2]

/-- C4 witness: an empty candidate set yields no calibration value. -/
theorem c4_calibration_safety_witness :
    Content.detectCursorPriceFromScale [] ⟨0, 0, 100, 100⟩ 50 = none :=
  (c4_calibration_safety [] ⟨0, 0, 100, 100⟩ 50).1 (by decide)

theorem sumP_line (pts : List Content.Point) (a b : ℚ)
    (h : ∀ pt ∈ pts, pt.p = a * pt.y + b) :
    Content.sumP pts = a * Content.sumY pts + b * pts.length := by
  induction pts with
  | nil => simp [Content.sumP, Content.sumY]
  | cons q t ih =>
    have hq := h q (List.mem_cons_self q t)
    have ht : ∀ pt ∈ t, pt.p = a * pt.y + b := fun pt hpt => h pt (List.mem_cons_of_mem _ hpt)
    simp only [Content.sumP, Content.sumY, List.map_cons, List.sum_cons,
      List.length_cons] at *
    rw [hq, ih ht]
    push_cast
    ring

theorem sumYP_line (pts : List Content.Point) (a b : ℚ)
    (h : ∀ pt ∈ pts, pt.p = a * pt.y + b) :
    Content.sumYP pts = a * Content.sumYY pts + b * Content.sumY pts := by
  induction pts with
  | nil => simp [Content.sumYP, Content.sumYY, Content.sumY]
  | cons q t ih =>
    have hq := h q (List.mem_cons_self q t)
    have ht : ∀ pt ∈ t, pt.p = a * pt.y + b := fun pt hpt => h pt (List.mem_cons_of_mem _ hpt)
    simp only [Content.sumYP, Content.sumYY, Content.sumY, List.map_cons, List.sum_cons] at *
    rw [hq, ih ht]
    ring

/-- C5 counterexample: three exactly-colinear points (`p = 1·y + 5`,
slope ≠ 0) with pairwise-distinct y survive none of the claim's
preconditions unmet, yet the fit returns nothing — their y-spread is so
small that the 1e-6 degeneracy guard rejects the (well-defined)
least-squares system. -/
theorem c5_guard_counterexample :
    (∀ pt ∈ Content.tinySpanPts, pt.p = 1 * pt.y + 5) ∧
    (1 : ℚ) ≠ 0 ∧
    3 ≤ Content.tinySpanPts.length ∧
    List.Pairwise (fun p1 p2 => p1.y ≠ p2.y) Content.tinySpanPts ∧
    Content.lsFit Content.tinySpanPts = none := by
  refine ⟨?_, by norm_num, by simp [Content.tinySpanPts], ?_, ?_⟩
  · intro pt hpt
    simp only [Content.tinySpanPts, List.mem_cons, List.not_mem_nil, or_false] at hpt
    rcases hpt with h | h | h <;> subst h <;> norm_num
  · norm_num [Content.tinySpanPts, List.pairwise_cons]
  · norm_num [Content.lsFit, Content.tinySpanPts, Content.sumY, Content.sumYY,
      Content.sumP, Content.sumYP]
    intro hcontra
    rw [show |(3 : ℚ) / 50000000| = 3 / 50000000 from abs_of_pos (by norm_num)] at hcontra
    norm_num at hcontra

/-- C5 (amended): for at least 3 colinear points `p = a·y + b` (`a ≠ 0`)
with pairwise-distinct y whose denominator `n·Σy² − (Σy)²` clears the 1e-6
degeneracy guard, the least-squares fit recovers `a` and `b` exactly over
`ℚ`, and the fitted line reproduces every sample's price. -/
theorem c5_ls_fit_recovers (a b : ℚ) (pts : List Content.Point)
    (_ha : a ≠ 0) (h3 : 3 ≤ pts.length)
    (hline : ∀ pt ∈ pts, pt.p = a * pt.y + b)
    (_hdist : pts.Pairwise (fun p1 p2 => p1.y ≠ p2.y))
    (hguard : 1 / 1000000 ≤
      |(pts.length : ℚ) * Content.sumYY pts - Content.sumY pts * Content.sumY pts|) :
    Content.lsFit pts = some (a, b) ∧ ∀ pt ∈ pts, a * pt.y + b = pt.p := by
  have hn3 : ¬pts.length < 3 := not_lt.mpr h3
  have hnz : (pts.length : ℚ) ≠ 0 := by
    have h0 : 0 < pts.length := lt_of_lt_of_le (by norm_num) h3
    exact_mod_cast Nat.pos_iff_ne_zero.mp h0
  have hd : (pts.length : ℚ) * Content.sumYY pts - Content.sumY pts * Content.sumY pts
      ≠ 0 := by
    intro h0
    rw [h0] at hguard
    simp at hguard
    linarith
  refine ⟨?_, fun pt hpt => (hline pt hpt).symm⟩
  simp only [Content.lsFit, hn3, if_false]
  have hng : ¬|(pts.length : ℚ) * Content.sumYY pts -
      Content.sumY pts * Content.sumY pts| < 1 / 1000000 := not_lt.mpr hguard
  rw [if_neg hng]
  have hP := sumP_line pts a b hline
  have hYP := sumYP_line pts a b hline
  have hA : ((pts.length : ℚ) * Content.sumYP pts - Content.sumY pts * Content.sumP pts) /
      ((pts.length : ℚ) * Content.sumYY pts - Content.sumY pts * Content.sumY pts) = a := by
    have hnum : (pts.length : ℚ) * Content.sumYP pts - Content.sumY pts * Content.sumP pts
        = a * ((pts.length : ℚ) * Content.sumYY pts -
            Content.sumY pts * Content.sumY pts) := by
      rw [hP, hYP]
      ring
    rw [hnum, mul_div_assoc, div_self hd, mul_one]
  rw [hA]
  have hB : (Content.sumP pts - a * Content.sumY pts) / (pts.length : ℚ) = b := by
    rw [hP]
    have hb : a * Content.sumY pts + b * (pts.length : ℚ) - a * Content.sumY pts
        = b * (pts.length : ℚ) := by ring
    rw [hb, mul_div_assoc, div_self hnz, mul_one]
  rw [hB]

/-- C5 witness: the fit on three well-spread colinear points recovers the
line `p = 1·y + 5`. -/
theorem c5_ls_fit_recovers_witness :
    Content.lsFit Content.linePts = some (1, 5) :=
  (c5_ls_fit_recovers 1 5 Content.linePts (by norm_num) (by simp [Content.linePts])
    (by intro pt hpt
        simp only [Content.linePts, List.mem_cons, List.not_mem_nil, or_false] at hpt
        rcases hpt with h | h | h <;> subst h <;> norm_num)
    (by norm_num [Content.linePts, List.pairwise_cons])
    (by norm_num [Content.linePts, Content.sumY, Content.sumYY])).1

/-! Helper lemmas for the bridge sender. -/

theorem post_cases (st : SenderState) (now wall p : ℚ) :
    ((Standalone.post st now wall p).2 = none ∧
      (Standalone.post st now wall p).1.lastSent = st.lastSent) ∨
    ((Standalone.post st now wall p).2 = some ⟨true, "cursor_price", p, wall⟩ ∧
      (Standalone.post st now wall p).1.lastSent = now ∧
      st.lastSent + 50 ≤ now ∧ 0 < p) := by
  simp only [Standalone.post]
  split_ifs with h1 h2 h3
  · exact Or.inl ⟨rfl, rfl⟩
  · exact Or.inl ⟨rfl, rfl⟩
  · exact Or.inl ⟨rfl, rfl⟩
  · refine Or.inr ⟨rfl, rfl, ?_, ?_⟩
    · linarith [not_lt.mp h2]
    · linarith [not_le.mp h1]

theorem postTrace_cons (st : SenderState) (e : PostEvent) (rest : List PostEvent) :
    Standalone.postTrace st (e :: rest) =
      match (Standalone.post st e.now e.wall e.price).2 with
      | none => Standalone.postTrace (Standalone.post st e.now e.wall e.price).1 rest
      | some m =>
          (e.now, m) :: Standalone.postTrace (Standalone.post st e.now e.wall e.price).1 rest := by
  simp only [Standalone.postTrace]
  rcases h : Standalone.post st e.now e.wall e.price with ⟨st', out⟩
  cases out <;> simp

theorem postTrace_props (evts : List PostEvent) (st : SenderState) :
    (∀ e, (Standalone.postTrace st evts).head? = some e → st.lastSent + 50 ≤ e.1) ∧
    List.Chain' (fun e1 e2 : ℚ × Msg => e1.1 + 50 ≤ e2.1)
      (Standalone.postTrace st evts) ∧
    ∀ e ∈ Standalone.postTrace st evts,
      e.2.marker = true ∧ e.2.kind = "cursor_price" ∧ 0 < e.2.price := by
  induction evts generalizing st with
  | nil => simp [Standalone.postTrace]
  | cons ev rest ih =>
    rw [postTrace_cons]
    rcases post_cases st ev.now ev.wall ev.price with ⟨hnone, hls⟩ | ⟨hsome, hls, hsp, hp⟩
    · rw [hnone]
      have h' := ih (Standalone.post st ev.now ev.wall ev.price).1
      refine ⟨?_, h'.2.1, h'.2.2⟩
      intro e he
      have hb := h'.1 e he
      rwa [hls] at hb
    · rw [hsome]
      have h' := ih (Standalone.post st ev.now ev.wall ev.price).1
      refine ⟨?_, ?_, ?_⟩
      · intro e he
        simp only [List.head?_cons, Option.some.injEq] at he
        subst he
        exact hsp
      · refine List.chain'_cons'.mpr ⟨?_, h'.2.1⟩
        intro y hy
        have hb := h'.1 y (Option.mem_def.mp hy)
        rwa [hls] at hb
      · intro e he
        rcases List.mem_cons.mp he with he1 | he2
        · subst he1
          exact ⟨rfl, rfl, hp⟩
        · exact h'.2.2 e he2

theorem send_cases (st : SenderState) (now wall p : ℚ) :
    ((Inline.send st now wall p).2 = none ∧
      (Inline.send st now wall p).1.lastSent = st.lastSent) ∨
    ((Inline.send st now wall p).2 = some ⟨true, "cursor_price", p, wall⟩ ∧
      (Inline.send st now wall p).1.lastSent = now ∧
      st.lastSent + 50 ≤ now ∧ 0 < p) := by
  simp only [Inline.send]
  split_ifs with h1 h2 h3
  · exact Or.inl ⟨rfl, rfl⟩
  · exact Or.inl ⟨rfl, rfl⟩
  · exact Or.inl ⟨rfl, rfl⟩
  · refine Or.inr ⟨rfl, rfl, ?_, ?_⟩
    · linarith [not_lt.mp h2]
    · linarith [not_le.mp h1]

theorem sendTrace_cons (st : SenderState) (e : PostEvent) (rest : List PostEvent) :
    Inline.sendTrace st (e :: rest) =
      match (Inline.send st e.now e.wall e.price).2 with
      | none => Inline.sendTrace (Inline.send st e.now e.wall e.price).1 rest
      | some m =>
          (e.now, m) :: Inline.sendTrace (Inline.send st e.now e.wall e.price).1 rest := by
  simp only [Inline.sendTrace]
  rcases h : Inline.send st e.now e.wall e.price with ⟨st', out⟩
  cases out <;> simp

theorem sendTrace_props (evts : List PostEvent) (st : SenderState) :
    (∀ e, (Inline.sendTrace st evts).head? = some e → st.lastSent + 50 ≤ e.1) ∧
    List.Chain' (fun e1 e2 : ℚ × Msg => e1.1 + 50 ≤ e2.1)
      (Inline.sendTrace st evts) ∧
    ∀ e ∈ Inline.sendTrace st evts,
      e.2.marker = true ∧ e.2.kind = "cursor_price" ∧ 0 < e.2.price := by
  induction evts generalizing st with
  | nil => simp [Inline.sendTrace]
  | cons ev rest ih =>
    rw [sendTrace_cons]
    rcases send_cases st ev.now ev.wall ev.price with ⟨hnone, hls⟩ | ⟨hsome, hls, hsp, hp⟩
    · rw [hnone]
      have h' := ih (Inline.send st ev.now ev.wall ev.price).1
      refine ⟨?_, h'.2.1, h'.2.2⟩
      intro e he
      have hb := h'.1 e he
      rwa [hls] at hb
    · rw [hsome]
      have h' := ih (Inline.send st ev.now ev.wall ev.price).1
      refine ⟨?_, ?_, ?_⟩
      · intro e he
        simp only [List.head?_cons, Option.some.injEq] at he
        subst he
        exact hsp
      · refine List.chain'_cons'.mpr ⟨?_, h'.2.1⟩
        intro y hy
        have hb := h'.1 y (Option.mem_def.mp hy)
        rwa [hls] at hb
      · intro e he
        rcases List.mem_cons.mp he with he1 | he2
        · subst he1
          exact ⟨rfl, rfl, hp⟩
        · exact h'.2.2 e he2

/-- C9 counterexample: the value 5, identical to the last sent value, is
re-offered 400ms after the last send — the heartbeat interval has long
elapsed and the 50ms throttle is satisfied — yet the inlined `send`
still suppresses it, while the standalone `post` re-sends it. The
claim's heartbeat exception is false for `send`, one of its two cited
senders. -/
theorem c9_send_no_heartbeat_counterexample :
    (350 : ℚ) ≤ 400 - 0 ∧ (50 : ℚ) ≤ 400 - 0 ∧
    (Inline.send ⟨some 5, 0, some 5⟩ 400 0 5).2 = none ∧
    (Standalone.post ⟨some 5, 0, some 5⟩ 400 0 5).2
      = some ⟨true, "cursor_price", 5, 0⟩ := by
  refine ⟨by norm_num, by norm_num, ?_, ?_⟩
  · simp only [Inline.send]
    rw [if_neg (by norm_num), if_neg (by norm_num)]
    simp
  · simp only [Standalone.post]
    rw [if_neg (by norm_num), if_neg (by norm_num),
      if_neg (fun hcon => by norm_num at hcon)]

/-- C9 (amended): both senders emit messages at least 50ms apart
(≤ ~20 per second) over any invocation sequence, and every posted
message carries the `__rhwidget` marker, the `cursor_price` kind, and a
strictly positive (finite) price. Their deduplication differs: the
standalone `post` suppresses a value equal to the previously sent one
only while less than the 350ms heartbeat interval (the spec's "~300ms")
has elapsed, re-sending it afterwards, whereas the inlined `send`
suppresses an identical consecutive value unconditionally — it has no
heartbeat — and re-sends only when the value differs. -/
theorem c9_bridge_senders (evts : List PostEvent) :
    List.Chain' (fun e1 e2 : ℚ × Msg => e1.1 + 50 ≤ e2.1)
      (Standalone.postTrace initSenderState evts) ∧
    (∀ e ∈ Standalone.postTrace initSenderState evts,
      e.2.marker = true ∧ e.2.kind = "cursor_price" ∧ 0 < e.2.price) ∧
    List.Chain' (fun e1 e2 : ℚ × Msg => e1.1 + 50 ≤ e2.1)
      (Inline.sendTrace initSenderState evts) ∧
    (∀ e ∈ Inline.sendTrace initSenderState evts,
      e.2.marker = true ∧ e.2.kind = "cursor_price" ∧ 0 < e.2.price) ∧
    (∀ (st : SenderState) (now wall p : ℚ), st.lastSentPrice = some p →
      now - st.lastSent < 350 → (Standalone.post st now wall p).2 = none) ∧
    (∀ (st : SenderState) (now wall p : ℚ), 0 < p → 50 ≤ now - st.lastSent →
      (st.lastSentPrice ≠ some p ∨ 350 ≤ now - st.lastSent) →
      (Standalone.post st now wall p).2 = some ⟨true, "cursor_price", p, wall⟩) ∧
    (∀ (st : SenderState) (now wall p : ℚ), st.lastSentPrice = some p →
      (Inline.send st now wall p).2 = none) ∧
    (∀ (st : SenderState) (now wall p : ℚ), 0 < p → 50 ≤ now - st.lastSent →
      st.lastSentPrice ≠ some p →
      (Inline.send st now wall p).2 = some ⟨true, "cursor_price", p, wall⟩) := by
  refine ⟨(postTrace_props evts initSenderState).2.1,
    (postTrace_props evts initSenderState).2.2,
    (sendTrace_props evts initSenderState).2.1,
    (sendTrace_props evts initSenderState).2.2, ?_, ?_, ?_, ?_⟩
  · intro st now wall p hdup hage
    simp only [Standalone.post]
    split_ifs with h1 h2 h3
    · rfl
    · rfl
    · rfl
    · exact absurd ⟨hdup, hage⟩ h3
  · intro st now wall p hp hsp hfresh
    simp only [Standalone.post]
    split_ifs with h1 h2 h3
    · linarith
    · linarith
    · rcases hfresh with hne | hbeat
      · exact absurd h3.1 hne
      · linarith [h3.2]
    · rfl
  · intro st now wall p hdup
    simp only [Inline.send]
    split_ifs with h1 h2
    · rfl
    · rfl
    · rfl
  · intro st now wall p hp hsp hne
    simp only [Inline.send]
    split_ifs with h1 h2
    · linarith
    · linarith
    · rfl

/-- C9 witness: the inlined `send` suppresses a repeat of the just-sent
value 5 even 440ms after the last send. -/
theorem c9_bridge_senders_witness :
    (Inline.send ⟨some 5, 60, some 5⟩ 500 0 5).2 = none :=
  (c9_bridge_senders []).2.2.2.2.2.2.1 ⟨some 5, 60, some 5⟩ 500 0 5 rfl

/-! Helper lemmas for the draw-call interceptors. -/

theorem extractNumberToken_pos (raw : String) (v : ℚ)
    (h : Standalone.extractNumberToken raw = some v) : 0 < v := by
  simp only [Standalone.extractNumberToken] at h
  split_ifs at h
  revert h
  split
  · intro h
    exact Option.noConfusion h
  · rename_i n heq
    split_ifs with h2
    · intro h
      exact h.elim
    · intro h
      have hv : n = v := by injection h
      subst hv
      exact lt_of_not_le h2

theorem extractNumberToken_seven : Standalone.extractNumberToken "7" = some 7 := by
  have h1 : Standalone.extractNumberToken "7"
      = (if decToRat ['7'] [] ≤ 0 then none else some (decToRat ['7'] [])) := rfl
  have hd : digitVal '7' = 7 := rfl
  have h2 : decToRat ['7'] [] = 7 := by
    norm_num [decToRat, natOfDigits, List.foldl, hd]
  rw [h1, h2]
  norm_num

/-- C3 counterexample: the standalone reader's wrapped `fillText` forwards
a sample on the crosshair-exact path (`dy < 10`) although no badge
rectangle was ever remembered (`lastRect = none`, so the neutral-dark
badge condition fails) — refuting "it never emits a sample when the
neutral-dark badge condition fails". -/
theorem c3_crosshair_counterexample :
    Standalone.badgeOk none 60 12 = false ∧
    Standalone.fillTextPosts "7" 900 100 1000 500 (some 100) 0 500 none 60 = [7] := by
  constructor
  · rfl
  · simp only [Standalone.fillTextPosts, extractNumberToken_seven, Standalone.dyOfMouse,
      Standalone.badgeOk]
    norm_num

/-- C3 (amended): the inlined reader's wrapped `fillText` forwards a
cursor-price sample only when the text fully parses as a positive number,
the draw x lies in the right-hand 28% of the surface, the remembered
(under 10ms) rectangle classifies neutral-dark and not green/red, and the draw
y is within 35px of the pointer. The standalone reader obeys the same
conditions except that it additionally forwards, badge or no badge, when
the draw y is within 10px of the pointer (and its badge recency window is
12ms and its parser accepts a numeric token anywhere in the text). -/
theorem c3_filltext_conditions (text : String) (x y cw ch : ℚ)
    (cy mouseY : Option ℚ) (rTop rHeight : ℚ)
    (lastRect : Option LastRect) (now : ℚ) :
    (∀ v ∈ Inline.fillTextSends text x y cw mouseY lastRect now,
      Standalone.fullNumMatch (jsTrim text.toList) = some v ∧ 0 < v ∧
      cw * 72 / 100 < x ∧ Standalone.badgeOk lastRect now 10 = true ∧
      Inline.dyOfMouse mouseY y < 35) ∧
    (∀ v ∈ Standalone.fillTextPosts text x y cw ch cy rTop rHeight lastRect now,
      Standalone.extractNumberToken text = some v ∧ 0 < v ∧
      cw * 72 / 100 < x ∧
      (Standalone.dyOfMouse cy rTop rHeight ch y < 10 ∨
        (Standalone.badgeOk lastRect now 12 = true ∧
          Standalone.dyOfMouse cy rTop rHeight ch y < 35))) := by
  constructor
  · intro v hv
    simp only [Inline.fillTextSends] at hv
    revert hv
    split
    · intro hv
      exact absurd hv (List.not_mem_nil v)
    · rename_i val heq
      by_cases h0 : 0 < val
      · rw [if_pos h0] at *
        by_cases hcond : (decide (cw * 72 / 100 < x) && Standalone.badgeOk lastRect now 10
            && decide (Inline.dyOfMouse mouseY y < 35)) = true
        · rw [if_pos hcond]
          intro hv
          have hvv : v = val := List.mem_singleton.mp hv
          subst hvv
          simp only [Bool.and_eq_true, decide_eq_true_eq] at hcond
          exact ⟨heq, h0, hcond.1.1, hcond.1.2, hcond.2⟩
        · rw [if_neg hcond]
          intro hv
          exact absurd hv (List.not_mem_nil v)
      · rw [if_neg h0]
        intro hv
        exact absurd hv (List.not_mem_nil v)
  · intro v hv
    simp only [Standalone.fillTextPosts] at hv
    revert hv
    split
    · intro hv
      exact absurd hv (List.not_mem_nil v)
    · rename_i val heq
      by_cases hnear : cw * 72 / 100 < x
      · rw [if_pos hnear]
        intro hv
        rcases List.mem_append.mp hv with hv1 | hv1
        · by_cases hdy : Standalone.dyOfMouse cy rTop rHeight ch y < 10
          · rw [if_pos hdy] at hv1
            have hvv : v = val := List.mem_singleton.mp hv1
            subst hvv
            exact ⟨heq, extractNumberToken_pos text v heq, hnear, Or.inl hdy⟩
          · rw [if_neg hdy] at hv1
            exact absurd hv1 (List.not_mem_nil v)
        · by_cases hbg : Standalone.badgeOk lastRect now 12 = true ∧
              Standalone.dyOfMouse cy rTop rHeight ch y < 35
          · rw [if_pos hbg] at hv1
            have hvv : v = val := List.mem_singleton.mp hv1
            subst hvv
            exact ⟨heq, extractNumberToken_pos text v heq, hnear, Or.inr hbg⟩
          · rw [if_neg hbg] at hv1
            exact absurd hv1 (List.not_mem_nil v)
      · rw [if_neg hnear]
        intro hv
        exact absurd hv (List.not_mem_nil v)

/-- C3 witness: a sample forwarded on the standalone crosshair path
satisfies the amended necessary conditions. -/
theorem c3_filltext_conditions_witness :
    Standalone.extractNumberToken "7" = some 7 ∧ (0 : ℚ) < 7 ∧
    (1000 : ℚ) * 72 / 100 < 800 ∧
    (Standalone.dyOfMouse (some 100) 0 500 500 100 < 10 ∨
      (Standalone.badgeOk none 60 12 = true ∧
        Standalone.dyOfMouse (some 100) 0 500 500 100 < 35)) := by
  have hm : Standalone.fillTextPosts "7" 800 100 1000 500 (some 100) 0 500 none 60
      = [7] := by
    simp only [Standalone.fillTextPosts, extractNumberToken_seven, Standalone.dyOfMouse,
      Standalone.badgeOk]
    norm_num
  exact (c3_filltext_conditions "7" 800 100 1000 500 (some 100) none 0 500 none 60).2 7
    (by rw [hm]; exact List.mem_singleton_self 7)

/-! Helper lemmas relating the two readers' number parsers. -/

theorem drop_takeWhile_length (p : Char → Bool) (l : List Char) :
    l.drop (l.takeWhile p).length = l.dropWhile p := by
  induction l with
  | nil => rfl
  | cons a t ih =>
    by_cases hp : p a
    · simp [List.takeWhile_cons_of_pos hp, List.dropWhile_cons_of_pos hp, ih]
    · simp [List.takeWhile_cons_of_neg hp, List.dropWhile_cons_of_neg hp]

theorem all_digits_of_dropWhile_nil (l : List Char) (h : l.dropWhile isDigit = []) :
    ∀ c ∈ l, isDigit c = true := by
  intro c hc
  have hsplit := List.takeWhile_append_dropWhile (p := isDigit) (l := l)
  rw [h, List.append_nil] at hsplit
  rw [← hsplit] at hc
  exact List.mem_takeWhile_imp hc

theorem fullNumMatch_shape (l : List Char) (v : ℚ)
    (h : Standalone.fullNumMatch l = some v) :
    ∀ c ∈ l, isDigit c = true ∨ c = '.' := by
  intro c hc
  simp only [Standalone.fullNumMatch] at h
  split_ifs at h with h1 h2 h3 h4 h5
  · left
    refine all_digits_of_dropWhile_nil l ?_ c hc
    rw [← drop_takeWhile_length isDigit l]
    exact List.isEmpty_iff.mp h2
  · have hdecomp : l.takeWhile isDigit ++ l.drop (l.takeWhile isDigit).length = l := by
      rw [drop_takeWhile_length]
      exact List.takeWhile_append_dropWhile isDigit l
    rw [← hdecomp] at hc
    rcases List.mem_append.mp hc with h6 | h6
    · exact Or.inl (List.mem_takeWhile_imp h6)
    · have hafter : ('.' : Char) :: (l.drop (l.takeWhile isDigit).length).tail
          = l.drop (l.takeWhile isDigit).length :=
        List.cons_head?_tail (Option.mem_def.mpr h3)
      rw [← hafter] at h6
      rcases List.mem_cons.mp h6 with h7 | h7
      · exact Or.inr h7
      · left
        refine all_digits_of_dropWhile_nil _ ?_ c h7
        rw [← drop_takeWhile_length isDigit _]
        exact List.isEmpty_iff.mp h5

theorem findNumToken_of_full (l : List Char) (v : ℚ)
    (h : Standalone.fullNumMatch l = some v) :
    Standalone.findNumToken l.length l = some v := by
  cases l with
  | nil => simp [Standalone.fullNumMatch] at h
  | cons c rest =>
    have hdig : isDigit c = true := by
      by_contra hc
      simp [Standalone.fullNumMatch, List.takeWhile_cons_of_neg hc] at h
    simp only [Standalone.fullNumMatch] at h
    rw [List.length_cons]
    simp only [Standalone.findNumToken]
    split_ifs at h ⊢ with h1 h2 h3 h4 h5 h6
    all_goals first
      | exact h
      | (rw [List.isEmpty_iff.mp h6] at h1
         simp at h1)

theorem extractNumberToken_of_full (txt : String) (v : ℚ)
    (h : Standalone.fullNumMatch (jsTrim txt.toList) = some v) :
    Standalone.extractNumberToken txt = if v ≤ 0 then none else some v := by
  have hshape := fullNumMatch_shape _ v h
  have hnil : jsTrim txt.toList ≠ [] := by
    intro h0
    rw [h0] at h
    simp [Standalone.fullNumMatch] at h
  have hfilter : (jsTrim txt.toList).filter (fun c => c ≠ ',') = jsTrim txt.toList := by
    rw [List.filter_eq_self]
    intro c hc
    simp only [decide_eq_true_eq]
    rcases hshape c hc with hd | hdot
    · intro heq
      rw [heq] at hd
      exact absurd hd (by decide)
    · subst hdot
      decide
  have hemp : ¬(jsTrim txt.toList).isEmpty = true := by
    simpa [List.isEmpty_iff] using hnil
  simp only [Standalone.extractNumberToken, hfilter]
  rw [if_neg hemp, findNumToken_of_full _ v h]

/-- At identity canvas geometry (client rect top 0, height equal to the
pixel height) the standalone pointer distance coincides with the inlined
reader's tracked distance. -/
theorem dyOfMouse_ident (mouseY : Option ℚ) (ch y : ℚ) (hch : 0 < ch) :
    Standalone.dyOfMouse mouseY 0 ch ch y = Inline.dyOfMouse mouseY y := by
  cases mouseY with
  | none => rfl
  | some m =>
    simp only [Standalone.dyOfMouse, Inline.dyOfMouse, if_pos hch, sub_zero]
    rw [div_self (ne_of_gt hch), mul_one]

/-- When the candidate value differs from the last sent one, the
standalone `post` and the inlined `send` behave identically (their only
difference is the heartbeat clause of the deduplication test). -/
theorem post_eq_send_of_ne (st : SenderState) (now wall v : ℚ)
    (hne : st.lastSentPrice ≠ some v) :
    Standalone.post st now wall v = Inline.send st now wall v := by
  simp only [Standalone.post, Inline.send]
  split_ifs <;>
    first
      | rfl
      | (exfalso; tauto)

/-- The inlined `fillText` forwards either nothing or exactly the parsed
value. -/
theorem fillTextSends_cases (txt : String) (x y cw : ℚ) (mouseY : Option ℚ)
    (lastRect : Option LastRect) (now : ℚ) (v : ℚ)
    (hparse : Standalone.fullNumMatch (jsTrim txt.toList) = some v) :
    Inline.fillTextSends txt x y cw mouseY lastRect now = [] ∨
    Inline.fillTextSends txt x y cw mouseY lastRect now = [v] := by
  simp only [Inline.fillTextSends, hparse]
  split_ifs <;> simp

/-- Under the amended agreement conditions, both wrapped `fillText`s
forward the same value list. -/
theorem forwarded_lists_eq (txt : String) (x y cw ch : ℚ) (mouseY : Option ℚ)
    (lastRect : Option LastRect) (now v : ℚ) (hch : 0 < ch)
    (hparse : Standalone.fullNumMatch (jsTrim txt.toList) = some v)
    (hdy : 10 ≤ Inline.dyOfMouse mouseY y)
    (hbadge : Standalone.badgeOk lastRect now 10 = Standalone.badgeOk lastRect now 12) :
    Standalone.fillTextPosts txt x y cw ch mouseY 0 ch lastRect now
      = Inline.fillTextSends txt x y cw mouseY lastRect now := by
  have hdyeq := dyOfMouse_ident mouseY ch y hch
  have htok := extractNumberToken_of_full txt v hparse
  by_cases hv0 : v ≤ 0
  · rw [if_pos hv0] at htok
    simp only [Standalone.fillTextPosts, Inline.fillTextSends, htok, hparse]
    rw [if_neg (not_lt.mpr hv0)]
  · rw [if_neg hv0] at htok
    have hv0' : 0 < v := lt_of_not_le hv0
    have hnot10 : ¬Standalone.dyOfMouse mouseY 0 ch ch y < 10 := by
      rw [hdyeq]
      exact not_lt.mpr (le_trans (by norm_num) hdy)
    simp only [Standalone.fillTextPosts, Inline.fillTextSends, htok, hparse]
    rw [if_pos hv0', if_neg hnot10]
    by_cases hnear : cw * 72 / 100 < x
    · rw [if_pos hnear]
      simp only [List.nil_append]
      by_cases hb : Standalone.badgeOk lastRect now 12 = true
      · by_cases h35 : Inline.dyOfMouse mouseY y < 35
        · rw [if_pos ⟨hb, by rw [hdyeq]; exact h35⟩,
            if_pos (by rw [hbadge, hb]; simp [hnear, h35])]
        · rw [if_neg (by rw [hdyeq]; exact fun hcon => h35 hcon.2),
            if_neg (by simp [h35])]
      · have hb10 : Standalone.badgeOk lastRect now 10 = false := by
          rw [hbadge]
          exact Bool.eq_false_iff.mpr hb
        rw [if_neg (fun hcon => hb hcon.1), if_neg (by simp [hb10])]
    · rw [if_neg hnear, if_neg (by simp [hnear])]

/-- C10 counterexample: on the same single draw call — a numeric label
drawn at the pointer row with no remembered badge rectangle — the
standalone injected reader posts a message while the inlined reader posts
nothing, so the two page-context readers do not emit the same message
sequences. -/
theorem c10_reader_divergence_counterexample :
    Standalone.runReader 1000 500 ⟨initSenderState, none⟩
        [.text 60 0 "7" 900 100 (some 100)] = [(60, ⟨true, "cursor_price", 7, 0⟩)] ∧
    Inline.runReader 1000 ⟨initSenderState, none⟩
        [.text 60 0 "7" 900 100 (some 100)] = [] := by
  constructor
  · have hfp : Standalone.fillTextPosts "7" 900 100 1000 500 (some 100) 0 500 none 60
        = [7] := by
      simp only [Standalone.fillTextPosts, extractNumberToken_seven,
        Standalone.dyOfMouse, Standalone.badgeOk]
      norm_num
    simp only [Standalone.runReader, Standalone.readerStep, hfp, Standalone.senderRun,
      List.foldl]
    norm_num [Standalone.post, initSenderState]
    simp
  · have hparse : Standalone.fullNumMatch (jsTrim "7".toList)
        = some (decToRat ['7'] []) := rfl
    have hdsev : digitVal '7' = 7 := rfl
    have hd7 : decToRat ['7'] [] = (7 : ℚ) := by
      norm_num [decToRat, natOfDigits, List.foldl, hdsev]
    have hfs : Inline.fillTextSends "7" 900 100 1000 (some 100) none 60 = [] := by
      simp only [Inline.fillTextSends, hparse, hd7, Standalone.badgeOk]
      norm_num
    simp only [Inline.runReader, Inline.readerStep, hfs, Inline.senderRun, List.foldl]
    simp

/-- C10 (amended): the two coexisting readers are not behaviorally
equivalent in general — the standalone one additionally emits on the
crosshair-exact path and re-sends an unchanged value after its 350ms
heartbeat, while the inlined one suppresses every consecutive duplicate —
but they do agree step for step on every rectangle draw, and on every
text draw in which the drawn text is a plain numeric token, the canvas
has positive pixel height, the text is drawn at least 10px from the
pointer, the remembered rectangle's age is classified identically by the
10ms and 12ms recency windows, and the parsed value differs from the last
sent value: from equal states both readers emit the same messages and
reach equal states. -/
theorem c10_reader_step_equiv (cw ch : ℚ) (hch : 0 < ch)
    (st : Standalone.ReaderState) :
    (∀ (now w h : ℚ) (fill : String),
      Standalone.readerStep cw ch st (.rect now w h fill)
        = Inline.readerStep cw st (.rect now w h fill)) ∧
    (∀ (now wall : ℚ) (txt : String) (x y : ℚ) (mouseY : Option ℚ) (v : ℚ),
      Standalone.fullNumMatch (jsTrim txt.toList) = some v →
      10 ≤ Inline.dyOfMouse mouseY y →
      Standalone.badgeOk st.lastRect now 10 = Standalone.badgeOk st.lastRect now 12 →
      st.sender.lastSentPrice ≠ some v →
      Standalone.readerStep cw ch st (.text now wall txt x y mouseY)
        = Inline.readerStep cw st (.text now wall txt x y mouseY)) := by
  constructor
  · intro now w h fill
    rfl
  · intro now wall txt x y mouseY v hparse hdy hbadge hne
    simp only [Standalone.readerStep, Inline.readerStep]
    rw [forwarded_lists_eq txt x y cw ch mouseY st.lastRect now v hch hparse hdy hbadge]
    rcases fillTextSends_cases txt x y cw mouseY st.lastRect now v hparse with hS | hS <;>
      rw [hS]
    · rfl
    · simp only [Standalone.senderRun, Inline.senderRun, List.foldl,
        post_eq_send_of_ne st.sender now wall v hne]

/-- C10 witness: a conforming text draw (plain numeric token, 50px from
the pointer, no remembered rectangle, fresh value) is processed
identically by both readers. -/
theorem c10_reader_step_equiv_witness :
    Standalone.readerStep 1000 500 ⟨initSenderState, none⟩
        (.text 60 0 "7" 900 100 (some 150))
      = Inline.readerStep 1000 ⟨initSenderState, none⟩
        (.text 60 0 "7" 900 100 (some 150)) :=
  (c10_reader_step_equiv 1000 500 (by norm_num) ⟨initSenderState, none⟩).2
    60 0 "7" 900 100 (some 150) 7
    (by
      have h1 : Standalone.fullNumMatch (jsTrim "7".toList)
          = some (decToRat ['7'] []) := rfl
      have hd : digitVal '7' = 7 := rfl
      rw [h1]
      norm_num [decToRat, natOfDigits, List.foldl, hd])
    (by norm_num [Inline.dyOfMouse])
    rfl
    (by simp [initSenderState])

end RHWidget
